import Mathlib

/-!
Verification of the wrapid/wraptor binding-generation engine.

This file gives a shallow embedding, in Lean 4, of the parts of the
repository that the checked claims are about:

* the token-shape logic of `CTypesCodeGenerator.macro_code`
  (src/wrapid/ctgen/ctypes_code_generator.py),
* the type mapper `w_type_for_clang_type` and the rendering / import /
  dependency methods of its result classes (src/wraptor/ctgen/types.py),
* the per-kind code generators, the `Spacer` spacing state and
  `write_module` (src/wrapid/ctgen/ctypes_code_generator.py),
* the macro re-interleaving iteration of `TranslationUnitIterable.__iter__`
  (src/wrapid/decl.py),
* the include / include_forward / include_opaque_type flag transitions of
  `DeclWrapper` (src/wrapid/decl.py),
* the end-of-line comment attachment `CTypesCodeGenerator.right_comment`
  (src/wrapid/ctgen/ctypes_code_generator.py).

Machine integers do not occur (Python integers are unbounded); line
numbers and hashes are modelled as `Nat`, enum constant values as `Int`,
and Python strings as `String`.  Python functions that can raise
(assertions, missing dispatch keys, exhausted recursion fuel) are
modelled with `Option`, `none` being the raising outcome.
-/

namespace Wrapid

/-- Cursor kinds used by the engine (clang.cindex.CursorKind members that
the generator dispatches on, plus the synthetic OpaqueKind sentinel of
src/wrapid/decl.py and a catch-all for kinds the engine never handles). -/
inductive CKind where
  | enumDecl
  | enumConstantDecl
  | functionDecl
  | macroDefinition
  | macroInstantiation
  | structDecl
  | typedefDecl
  | unionDecl
  | fieldDecl
  | parmDecl
  | opaqueDecl
  | otherKind
  deriving DecidableEq, Repr

/-- StructDeclType from src/wrapid/decl.py. -/
inductive StructDeclType where
  | full
  | forwardOnly
  | definitionOnly
  deriving DecidableEq, Repr

/-- Token kinds (clang.cindex.TokenKind) that the engine inspects. -/
inductive CTokenKind where
  | punctuation
  | identifier
  | commentKind
  | literalKind
  | keywordKind
  deriving DecidableEq, Repr

/-- A lexical token: kind plus spelling (clang.cindex.Token as consumed
by the engine). -/
structure CToken where
  kind : CTokenKind
  spelling : String
  deriving DecidableEq, Repr

/-- A declaration cursor as referenced from the type mapper: its stable
hash, kind, spelling, and token stream (used by
`ConstantArrayType.element_count` to re-scan for a macro identifier
between brackets).  `clang_type.get_declaration()` returning the
NO_DECL_FOUND sentinel is modelled as `Option.none` at use sites. -/
structure CursorRef where
  hash : Nat
  kind : CKind
  spelling : String
  tokens : List CToken
  deriving DecidableEq, Repr

/-- Type kinds (clang.cindex.TypeKind members the mapper dispatches on;
`otherType` covers every kind the mapper does not handle, which falls
back to the raw-spelling `WCTypesType`). -/
inductive TypeKind where
  | bool | char_s | char_u | double | float | int | long | longdouble
  | longlong | schar | short | uchar | uint | ulong | ulonglong | ushort
  | wchar
  | constantArray | elaborated | functionProto | pointer | void | otherType
  deriving DecidableEq, Repr

/--
A parsed C type (clang.cindex.Type) as consumed by
src/wraptor/ctgen/types.py.  `sub` holds the component types reached
through the accessors the mapper uses: for `pointer` it is
`[get_pointee()]`, for `constantArray` it is `[element_type]`, for
`functionProto` it is `get_result() :: argument_types()`, and for
`elaborated` it is `[get_declaration().type]` (the underlying type the
mapper resolves to).  `declaration` is `get_declaration()` with the
NO_DECL_FOUND sentinel modelled as `none`; `elemCount` is
`element_count` for constant arrays.
-/
inductive ClangType where
  | mk (kind : TypeKind) (spelling : String) (declaration : Option CursorRef)
       (sub : List ClangType) (elemCount : Nat)

def ClangType.kind : ClangType → TypeKind
  | .mk k _ _ _ _ => k

def ClangType.spelling : ClangType → String
  | .mk _ s _ _ _ => s

def ClangType.declaration : ClangType → Option CursorRef
  | .mk _ _ d _ _ => d

def ClangType.elemCount : ClangType → Nat
  | .mk _ _ _ _ n => n

def ClangType.sub : ClangType → List ClangType
  | .mk _ _ _ s _ => s

/-- The `primitive_ctype_for_clang_type` table of
src/wraptor/ctgen/types.py lines 156-174. -/
def primitiveCtypeForClangType : TypeKind → Option String
  | .bool => some "c_bool"
  | .char_s => some "c_char"
  | .char_u => some "c_ubyte"
  | .double => some "c_double"
  | .float => some "c_float"
  | .int => some "c_int"
  | .long => some "c_long"
  | .longdouble => some "c_longdouble"
  | .longlong => some "c_longlong"
  | .schar => some "c_char"
  | .short => some "c_short"
  | .uchar => some "c_ubyte"
  | .uint => some "c_uint"
  | .ulong => some "c_ulong"
  | .ulonglong => some "c_ulonglong"
  | .ushort => some "c_ushort"
  | .wchar => some "c_wchar"
  | _ => none

/--
The mapped-type value classes of src/wraptor/ctgen/types.py: each
constructor is one Python class (`WCTypesType` itself is `base`), each
storing the clang type it was built over, exactly as the Python objects
store `self.clang_type`; `constantArray` additionally stores the
`parent_declaration` passed to `ConstantArrayType.__init__`, and
`primitive` the ctypes symbol.
-/
inductive WType where
  | base (clangType : ClangType)
  | constantArray (clangType : ClangType) (parentDeclaration : Option CursorRef)
  | functionPointer (clangType : ClangType)
  | pointer (clangType : ClangType)
  | primitive (clangType : ClangType) (symbol : String)
  | voidType (clangType : ClangType)

/--
`w_type_for_clang_type` (src/wraptor/ctgen/types.py lines 129-153):
dispatch on the type kind, first through the primitive table, then by
kind; `elaborated` resolves transparently to the underlying
declaration's type (recursively, with no parent declaration, as in the
source); a `pointer` specializes on its pointee's kind in the source's
order (signed/plain char, function prototype, void, wide char, then the
generic pointer wrapper).  A node whose required component type is
missing from `sub` (never produced by the AST provider) degrades to the
raw-spelling fallback `base`.
-/
def wTypeForClangType : ClangType → Option CursorRef → WType
  | .mk k sp decl sub n, p =>
    match primitiveCtypeForClangType k with
    | some sym => .primitive (.mk k sp decl sub n) sym
    | none =>
      match k, sub with
      | .constantArray, _ => .constantArray (.mk k sp decl sub n) p
      | .elaborated, u :: _ => wTypeForClangType u none
      | .functionProto, _ => .functionPointer (.mk k sp decl sub n)
      | .pointer, pt :: rest =>
        if pt.kind = .char_s ∨ pt.kind = .schar then
          .primitive (.mk k sp decl (pt :: rest) n) "c_char_p"
        else if pt.kind = .functionProto then .functionPointer pt
        else if pt.kind = .void then
          .primitive (.mk k sp decl (pt :: rest) n) "c_void_p"
        else if pt.kind = .wchar then
          .primitive (.mk k sp decl (pt :: rest) n) "c_wchar_p"
        else .pointer (.mk k sp decl (pt :: rest) n)
      | .void, _ => .voidType (.mk k sp decl sub n)
      | _, _ => .base (.mk k sp decl sub n)

/--
The bracket scan of `ConstantArrayType.element_count`
(src/wraptor/ctgen/types.py lines 46-56): walk the declaration's
tokens, track whether the position is between `[` and `]` punctuation,
and return the first identifier spelling found inside brackets.
-/
def bracketIdentifier : List CToken → Bool → Option String
  | [], _ => none
  | t :: rest, inBrackets =>
    if t.kind = .punctuation ∧ t.spelling = "[" then bracketIdentifier rest true
    else if t.kind = .punctuation ∧ t.spelling = "]" then bracketIdentifier rest false
    else if inBrackets ∧ t.kind = .identifier then some t.spelling
    else bracketIdentifier rest inBrackets

/--
`ConstantArrayType.element_count` (src/wraptor/ctgen/types.py lines
39-57), rendered as the string interpolated by `__str__`: prefer the
macro identifier spelled between brackets in the tokens of the array
type's declaration (falling back to the parent declaration when the
type has none), else the numeric element count.
-/
def elementCountStr (tdecl p : Option CursorRef) (cnt : Nat) : String :=
  match tdecl.orElse (fun _ => p) with
  | some c =>
    match bracketIdentifier c.tokens false with
    | some ident => ident
    | none => toString cnt
  | none => toString cnt

/-- Whether the first list is an initial segment of the second
(Python's `str.startswith`, over character lists). -/
def listStarts : List Char → List Char → Bool
  | [], _ => true
  | _ :: _, [] => false
  | a :: as, b :: bs => a = b && listStarts as bs

/-- Python's `str.startswith`. -/
def strStarts (pre s : String) : Bool :=
  listStarts pre.data s.data

/-- `WCTypesType.__str__` (src/wraptor/ctgen/types.py lines 23-27): the
raw type spelling with a leading `struct ` removed. -/
def baseRender (sp : String) : String :=
  if strStarts "struct " sp then sp.drop 7 else sp

mutual

/--
The composition `str(w_type_for_clang_type(t, p))`: the `__str__`
methods of the classes of src/wraptor/ctgen/types.py, inlined over the
`w_type_for_clang_type` dispatch.  Primitive symbols render as
themselves, a constant array as `element * count`, a function prototype
as `CFUNCTYPE(result, arg, ...)` (including the source's trailing
`", "` when there are no arguments), a pointer by its specialization,
void as `None`, and anything else by its raw spelling via `baseRender`.
-/
def wstrC : ClangType → Option CursorRef → String
  | .mk k sp decl sub n, p =>
    match primitiveCtypeForClangType k with
    | some sym => sym
    | none =>
      match k, sub with
      | .constantArray, el :: _ =>
        wstrC el none ++ " * " ++ elementCountStr (ClangType.mk k sp decl sub n).declaration p n
      | .elaborated, u :: _ => wstrC u none
      | .functionProto, res :: args =>
        "CFUNCTYPE(" ++ wstrC res none ++ ", " ++ String.intercalate ", " (wstrList args) ++ ")"
      | .pointer, pt :: _ =>
        if pt.kind = .char_s ∨ pt.kind = .schar then "c_char_p"
        else if pt.kind = .functionProto then wstrC pt none
        else if pt.kind = .void then "c_void_p"
        else if pt.kind = .wchar then "c_wchar_p"
        else "POINTER(" ++ wstrC pt none ++ ")"
      | .void, _ => "None"
      | _, _ => baseRender sp

/-- Renderings of a list of argument types, for `FunctionPointerType.__str__`. -/
def wstrList : List ClangType → List String
  | [] => []
  | a :: as => wstrC a none :: wstrList as

end

mutual

/--
The composition `list(w_type_for_clang_type(t, p).imports())`: the
`imports` generators of src/wraptor/ctgen/types.py inlined over the
dispatch.  Primitives import their ctypes symbol, arrays their
element's imports, function prototypes `CFUNCTYPE` plus result and
argument imports, pointers their specialization's symbol or `POINTER`
plus the pointee's imports; `VoidType` and the raw fallback import
nothing.
-/
def wimportsC : ClangType → Option CursorRef → List (String × String)
  | .mk k _ _ sub _, _ =>
    match primitiveCtypeForClangType k with
    | some sym => [("ctypes", sym)]
    | none =>
      match k, sub with
      | .constantArray, el :: _ => wimportsC el none
      | .elaborated, u :: _ => wimportsC u none
      | .functionProto, res :: args =>
        ("ctypes", "CFUNCTYPE") :: (wimportsC res none ++ wimportsList args)
      | .functionProto, [] => [("ctypes", "CFUNCTYPE")]
      | .pointer, pt :: _ =>
        if pt.kind = .char_s ∨ pt.kind = .schar then [("ctypes", "c_char_p")]
        else if pt.kind = .functionProto then wimportsC pt none
        else if pt.kind = .void then [("ctypes", "c_void_p")]
        else if pt.kind = .wchar then [("ctypes", "c_wchar_p")]
        else ("ctypes", "POINTER") :: wimportsC pt none
      | _, _ => []

/-- Imports of a list of argument types, concatenated in order. -/
def wimportsList : List ClangType → List (String × String)
  | [] => []
  | a :: as => wimportsC a none ++ wimportsList as

end

/--
The composition `list(w_type_for_clang_type(t, p).dependencies())`: the
`dependencies` generators of src/wraptor/ctgen/types.py inlined over
the dispatch.  The base behaviour yields the type's declaration when it
is not the NO_DECL_FOUND sentinel; a constant array yields its
element's dependencies; a function pointer yields nothing; a generic
pointer yields its own declaration (the base behaviour) followed by its
pointee's dependencies.
-/
def wdepsC : ClangType → Option CursorRef → List CursorRef
  | .mk k _ decl sub _, _ =>
    match primitiveCtypeForClangType k with
    | some _ => decl.toList
    | none =>
      match k, sub with
      | .constantArray, el :: _ => wdepsC el none
      | .constantArray, [] => []
      | .elaborated, u :: _ => wdepsC u none
      | .functionProto, _ => []
      | .pointer, pt :: _ =>
        if pt.kind = .char_s ∨ pt.kind = .schar then decl.toList
        else if pt.kind = .functionProto then []
        else if pt.kind = .void then decl.toList
        else if pt.kind = .wchar then decl.toList
        else decl.toList ++ wdepsC pt none
      | _, _ => decl.toList

/--
The token-shape logic of `CTypesCodeGenerator.macro_code`
(src/wrapid/ctgen/ctypes_code_generator.py lines 269-280): `tokens` is
the list of token spellings after the macro's name; the result is the
right-hand side spelling to bind, or `none` when the macro is silently
skipped.  The source checks, in order: fewer than one token (empty
definition), more than two tokens, and for exactly two tokens that the
second one spells `-` (negative literal), appending it to the first.
-/
def macroRhs (tokens : List String) : Option String :=
  if tokens.length < 1 then none
  else if tokens.length > 2 then none
  else
    match tokens with
    | [] => none
    | t0 :: restTokens =>
      if tokens.length = 2 then
        match restTokens with
        | [] => none
        | t1 :: _ => if t1 = "-" then some (t0 ++ t1) else none
      else some t0

/-- Whether `pat` occurs as a contiguous infix of the second list
(Python's `in` on strings, over character lists). -/
def listHasInfix (pat : List Char) : List Char → Bool
  | [] => listStarts pat []
  | b :: bs => listStarts pat (b :: bs) || listHasInfix pat bs

/-- Lexicographic comparison by code point (Python's `<=` on strings). -/
def charListLe : List Char → List Char → Bool
  | [], _ => true
  | _ :: _, [] => false
  | a :: as, b :: bs =>
    if a.val < b.val then true
    else if b.val < a.val then false
    else charListLe as bs

def strLe (a b : String) : Bool :=
  charListLe a.data b.data

/-- Stable insertion into a `strLe`-sorted list (equal keys keep their
existing order, after which the new one is placed). -/
def insertSorted (x : String) : List String → List String
  | [] => [x]
  | y :: ys => if strLe y x then y :: insertSorted x ys else x :: y :: ys

/-- Python's `sorted` on strings: stable, ascending by code point. -/
def pySorted (l : List String) : List String :=
  l.foldl (fun acc x => insertSorted x acc) []

/-- The `Spacer` state of src/wrapid/ctgen/ctypes_code_generator.py
lines 38-60: the count of blank lines most recently recorded by
`end_pad` and the current indentation depth (`Indent` context managers
increment and decrement it). -/
structure Spacer where
  previousBlankLines : Nat
  indentCount : Nat
  deriving DecidableEq, Repr

/-- `Spacer.indent`: four spaces per indentation level. -/
def Spacer.indentStr (sp : Spacer) : String :=
  String.join (List.replicate sp.indentCount "    ")

/-- Entering one `Indent` context (`Spacer.next_indent`). -/
def Spacer.indented (sp : Spacer) : Spacer :=
  { sp with indentCount := sp.indentCount + 1 }

/-- `Spacer.pad_to`: yield blank lines until `numLines` of them
precede, without updating `previous_blank_lines` (the source generator
never writes the counter). -/
def Spacer.padTo (sp : Spacer) (numLines : Nat) : List String :=
  if numLines ≤ sp.previousBlankLines then []
  else List.replicate (numLines - sp.previousBlankLines) ""

/-- `Spacer.end_pad`: yield exactly `numLines` blank lines and record
them in `previous_blank_lines`. -/
def Spacer.endPad (sp : Spacer) (numLines : Nat) : List String × Spacer :=
  (List.replicate numLines "", { sp with previousBlankLines := numLines })

/--
The `CTypesCodeGenerator` accumulators that affect the emitted text
(src/wrapid/ctgen/ctypes_code_generator.py lines 67-69): `imports` is
the dict module → set of names (insertion-ordered association list,
each name set a deduplicated list whose internal order is irrelevant
because `import_code` sorts it), `allCursors` the `all_section_cursors`
set as a deduplicated list of cursor hashes.  The
`unexposed_dependencies` map only feeds the free-text warnings printed
after the artifact is flushed and never alters the emitted lines, so it
is not modelled; the `check_dependency` calls of the source are
correspondingly omitted below.
-/
structure GenState where
  imports : List (String × List String)
  allCursors : List Nat
  deriving DecidableEq, Repr

def insertName (nm : String) (names : List String) : List String :=
  if nm ∈ names then names else names ++ [nm]

def setImportGo (m nm : String) : List (String × List String) → List (String × List String)
  | [] => [(m, [nm])]
  | (m2, names) :: rest =>
    if m2 = m then (m2, insertName nm names) :: rest
    else (m2, names) :: setImportGo m nm rest

/-- `CTypesCodeGenerator.set_import`. -/
def GenState.setImport (st : GenState) (m nm : String) : GenState :=
  { st with imports := setImportGo m nm st.imports }

/-- `CTypesCodeGenerator.add_all_cursor`. -/
def GenState.addAll (st : GenState) (h : Nat) : GenState :=
  { st with
    allCursors := if h ∈ st.allCursors then st.allCursors else st.allCursors ++ [h] }

/-- `CTypesCodeGenerator.load_imports`: fold `set_import` over a mapped
type's import pairs. -/
def GenState.addImports (st : GenState) : List (String × String) → GenState
  | [] => st
  | (m, nm) :: rest => (st.setImport m nm).addImports rest

/--
A field declaration as consumed by `field_code`: the resolved alias,
the field's clang type, the field's own cursor (passed to the type
mapper as parent declaration), and the attached comments.  `aboveLines`
is the cleaned comment-line list that the `above_comment` lookup yields
for this declaration (empty when no comment is attached);
`rightC` is the attached single-line right comment, if any (the full
multi-line `right_comment` branch structure is modelled separately, for
claim C10; the generator model keeps the single-line case, which is the
only one its claims quantify over).  `unnamedAlias` abstracts the
`wrapper_index` alias lookup that `field_code` performs when the
rendered type name contains `(unnamed at ` — `none` when the type has
no declaration (the lookup is skipped and the rendered name kept).
-/
structure FieldDecl where
  aliasName : String
  ctype : ClangType
  ref : CursorRef
  unnamedAlias : Option String
  aboveLines : List String
  rightC : Option String

/-- Whether a rendered type name is the anonymous-declaration form
(`"(unnamed at " in type_name`). -/
def containsUnnamedAt (s : String) : Bool :=
  listHasInfix "(unnamed at ".data s.data

/--
The type name interpolated by `field_code`
(src/wrapid/ctgen/ctypes_code_generator.py lines 160-167).  Modelled
from the spec for the `w_type.alias` read: `wrapid/ctgen/types.py` is
absent from src (only the wraptor variant is present, whose classes
carry no `alias`), and the spec says each TypeExpression knows the
literal text it renders to, so a mapped type's alias is taken to be
its rendering `wstrC`.  When the rendering contains `(unnamed at `,
the wrapper alias looked up from the declaration replaces it.
-/
def fieldTypeName (f : FieldDecl) : String :=
  let tn := wstrC f.ctype (some f.ref)
  if containsUnnamedAt tn then
    match f.unnamedAlias with
    | some a => a
    | none => tn
  else tn

/-- Attachment of a (single-line) right comment to a generated code
line: the line is yielded unchanged when no comment is attached, else
with two spaces and the comment appended (`right_comment`'s one-token,
single-line path). -/
def rightAttach (rc : Option String) (line : String) : List String :=
  match rc with
  | none => [line]
  | some c => [line ++ "  " ++ c]

/-- `CTypesCodeGenerator.field_code`
(src/wrapid/ctgen/ctypes_code_generator.py lines 156-171): above
comment lines at the current indent, then the field-descriptor line
`("name", type),` with any right comment attached; the mapped type's
imports are registered. -/
def fieldCode (f : FieldDecl) (sp : Spacer) (st : GenState) : List String × GenState :=
  let i := sp.indentStr
  (f.aboveLines.map (fun l => i ++ l) ++
     rightAttach f.rightC (i ++ "(\"" ++ f.aliasName ++ "\", " ++ fieldTypeName f ++ "),"),
   st.addImports (wimportsC f.ctype (some f.ref)))

/--
A wrapped declaration (`DeclWrapper` of src/wrapid/decl.py together
with the cursor data each coder reads): stable hash, kind, source
spelling, resolved alias (`DeclWrapper.alias`: the rename override or
the name), the `_exported` flag, the struct/union definition mode, the
field children (structs/unions), the enum-constant children as
(spelling, resolved value) pairs, the token spellings after a macro's
name, a typedef's `underlying_typedef_type`, the declaration's own
token stream, the predecessor set (kept as a list: Python set
iteration order is unspecified, the model fixes one), and the attached
comments in the same abstraction used for fields.
-/
structure Decl where
  hash : Nat
  kind : CKind
  spelling : String
  aliasName : String
  exported : Bool
  declType : StructDeclType
  flds : List FieldDecl
  enumConstants : List (String × Int)
  tokensAfterName : List String
  underlying : ClangType
  tokens : List CToken
  predecessors : List Nat
  aboveLines : List String
  rightC : Option String

/-- The cursor reference a declaration passes to the type mapper as
parent declaration. -/
def Decl.ref (d : Decl) : CursorRef :=
  ⟨d.hash, d.kind, d.spelling, d.tokens⟩

/-- `CTypesCodeGenerator.macro_code`
(src/wrapid/ctgen/ctypes_code_generator.py lines 266-287): assert the
kind, build the right-hand side with `macroRhs`, silently yield
nothing on an unsupported shape, else add the cursor to the `__all__`
set (unconditionally — the source's `TODO: but only if exported...`)
and yield the binding line with its comments between `pad_to(0)` and
`end_pad(0)`. -/
def macroCode (d : Decl) (sp : Spacer) (st : GenState) :
    Option (List String × Spacer × GenState) :=
  if d.kind ≠ .macroDefinition then none
  else
    match macroRhs d.tokensAfterName with
    | none => some ([], sp, st)
    | some rhs =>
      let st1 := st.addAll d.hash
      let i := sp.indentStr
      let (padLines, sp1) := sp.endPad 0
      some (sp.padTo 0 ++ d.aboveLines.map (fun l => i ++ l) ++
              rightAttach d.rightC (i ++ d.spelling ++ " = " ++ rhs) ++ padLines,
            sp1, st1)

/-- `CTypesCodeGenerator.typedef_code`
(src/wrapid/ctgen/ctypes_code_generator.py lines 357-369): skip
no-op typedefs entirely (alias equal to the rendered underlying type:
no lines, no imports, no export); otherwise register the mapped type's
imports, add to the `__all__` set when exported, and yield the binding
line `alias: type = rendered` with its comments. -/
def typedefCode (d : Decl) (sp : Spacer) (st : GenState) :
    List String × Spacer × GenState :=
  let i := sp.indentStr
  let nm := d.aliasName
  let bt := wstrC d.underlying (some d.ref)
  if nm = bt then ([], sp, st)
  else
    let st1 := st.addImports (wimportsC d.underlying (some d.ref))
    let st2 := if d.exported then st1.addAll d.hash else st1
    (d.aboveLines.map (fun l => i ++ l) ++
       rightAttach d.rightC (i ++ nm ++ ": type = " ++ bt),
     sp, st2)

/-- `CTypesCodeGenerator.enum_code`
(src/wrapid/ctgen/ctypes_code_generator.py lines 123-148). -/
def enumCode (d : Decl) (sp : Spacer) (st : GenState) :
    Option (List String × Spacer × GenState) :=
  if d.kind ≠ .enumDecl then none
  else
    let st1 := st.setImport "enum" "IntFlag"
    let st2 := if d.exported then st1.addAll d.hash else st1
    let i := sp.indentStr
    let i1 := sp.indented.indentStr
    let vals := d.enumConstants
    let (padLines, sp1) := sp.endPad 1
    some (sp.padTo 2 ++ [i ++ "class " ++ d.aliasName ++ "(IntFlag):"] ++
            (if vals.isEmpty then [i1 ++ "pass"]
             else vals.map (fun v => i1 ++ v.1 ++ " = " ++ toString v.2) ++ ["", ""]) ++
            vals.map (fun v => i ++ v.1 ++ " = " ++ d.aliasName ++ "." ++ v.1) ++
            padLines,
          sp1, st2)

/-- `CTypesCodeGenerator.opaque_code`
(src/wrapid/ctgen/ctypes_code_generator.py lines 289-296). -/
def opaqueCode (d : Decl) (sp : Spacer) (st : GenState) :
    List String × Spacer × GenState :=
  let i := sp.indentStr
  let st1 := st.setImport "ctypes" "Structure"
  let (padLines, sp1) := sp.endPad 2
  (sp.padTo 2 ++
     [i ++ "# Opaque type", i ++ "class " ++ d.aliasName ++ "(Structure):",
      i ++ "    pass"] ++ padLines,
   sp1, st1)

/-- The inter-field lines of `_struct_union_code`'s loop after the
first field: each subsequent field is preceded by one blank line. -/
def fieldsBlockTail (fs : List FieldDecl) (sp : Spacer) (st : GenState) :
    List String × GenState :=
  match fs with
  | [] => ([], st)
  | f :: rest =>
    let (l1, st1) := fieldCode f sp st
    let (l2, st2) := fieldsBlockTail rest sp st1
    ("" :: (l1 ++ l2), st2)

/-- The field loop of `_struct_union_code`
(src/wrapid/ctgen/ctypes_code_generator.py lines 337-340): field lines
with one blank line between consecutive fields. -/
def fieldsBlock (fs : List FieldDecl) (sp : Spacer) (st : GenState) :
    List String × GenState :=
  match fs with
  | [] => ([], st)
  | f :: rest =>
    let (l1, st1) := fieldCode f sp st
    let (l2, st2) := fieldsBlockTail rest sp st1
    (l1 ++ l2, st2)

/-- `CTypesCodeGenerator._struct_union_code`
(src/wrapid/ctgen/ctypes_code_generator.py lines 308-345), covering the
FORWARD_ONLY, DEFINITION_ONLY and FULL modes; the dead
`raise NotImplementedError` branch cannot occur with the three-valued
mode enum. -/
def structUnionCode (d : Decl) (sp : Spacer) (ctn : String) (st : GenState) :
    List String × Spacer × GenState :=
  let i := sp.indentStr
  let fs := d.flds
  let pads := sp.padTo 2
  let sp1 := sp.indented
  let sp2 := sp1.indented
  let (bodyLines, st1) :=
    if d.declType = .forwardOnly then
      let msg :=
        if fs.length > 0 then
          "# Forward declaration. Definition of _fields_ will appear later."
        else "# Forward declaration"
      ([i ++ msg, i ++ "class " ++ d.aliasName ++ "(" ++ ctn ++ "):",
        sp1.indentStr ++ "pass"],
       st.setImport "ctypes" ctn)
    else
      let (headerLines, stHead) :=
        if d.declType = .definitionOnly then
          ((if fs.length > 0 then [i ++ d.aliasName ++ "._fields_ = ("] else []), st)
        else
          ([i ++ "class " ++ d.aliasName ++ "(" ++ ctn ++ "):",
            sp1.indentStr ++ (if fs.length > 0 then "_fields_ = (" else "pass")],
           st.setImport "ctypes" ctn)
      let (fb, stFields) := fieldsBlock fs sp2 stHead
      (headerLines ++ fb ++ (if fs.length > 0 then [sp1.indentStr ++ ")"] else []),
       stFields)
  let st2 := if d.exported then st1.addAll d.hash else st1
  let (padLines, spEnd) := sp.endPad 2
  (pads ++ bodyLines ++ padLines, spEnd, st2)

/-- `CTypesCodeGenerator.struct_code`. -/
def structCode (d : Decl) (sp : Spacer) (st : GenState) :
    Option (List String × Spacer × GenState) :=
  if d.kind ≠ .structDecl then none
  else some (structUnionCode d sp "Structure" st)

/-- `CTypesCodeGenerator.union_code`. -/
def unionCode (d : Decl) (sp : Spacer) (st : GenState) :
    Option (List String × Spacer × GenState) :=
  if d.kind ≠ .unionDecl then none
  else some (structUnionCode d sp "Union" st)

/--
One generation run's input: the memoized wrapper table (contents keyed
by cursor hash), the hashes of the included top-level declarations in
selection order (`module_builder.included()`), and the optional native
library (name, path) pair.
-/
structure Module where
  decls : Nat → Decl
  included : List Nat
  library : Option (String × String)

/--
`coder_for_cursor_kind` dispatch
(src/wrapid/ctgen/ctypes_code_generator.py lines 112-121) applied to a
declaration.  `function_code` requires the configured native library
handle and per-child result/parameter resolution; no claim exercises
it, so like the kinds absent from the dispatch dict (whose lookup
raises KeyError) it is modelled as the failing outcome `none`.
-/
def coderDispatch (M : Module) (h : Nat) (sp : Spacer) (st : GenState) :
    Option (List String × Spacer × GenState) :=
  let d := M.decls h
  match d.kind with
  | .enumDecl => enumCode d sp st
  | .macroDefinition => macroCode d sp st
  | .opaqueDecl => some (opaqueCode d sp st)
  | .structDecl => structCode d sp st
  | .typedefDecl => typedefCode d sp st |> some
  | .unionDecl => unionCode d sp st
  | _ => none

/-- The predecessor loop of `CTypesCodeGenerator._write_declaration`
(src/wrapid/ctgen/ctypes_code_generator.py lines 381-385): each
predecessor is emitted first, recursively; only a predecessor that is
the declaration itself (`dep is decl`) is skipped — there is no record
of already-emitted declarations (the source's
`TODO: check if its already exported first`). -/
def runPreds
    (wd : Nat → Spacer → GenState → Option (List String × Spacer × GenState))
    (selfHash : Nat) :
    List Nat → Spacer → GenState → Option (List String × Spacer × GenState)
  | [], sp, st => some ([], sp, st)
  | p :: ps, sp, st =>
    if p = selfHash then runPreds wd selfHash ps sp st
    else
      match wd p sp st with
      | none => none
      | some (l1, sp1, st1) =>
        match runPreds wd selfHash ps sp1 st1 with
        | none => none
        | some (l2, sp2, st2) => some (l1 ++ l2, sp2, st2)

/-- `CTypesCodeGenerator._write_declaration`
(src/wrapid/ctgen/ctypes_code_generator.py lines 380-387).  The Python
recursion can diverge on predecessor cycles, so the embedding takes
explicit fuel; `none` models both divergence (fuel exhausted along
every extension) and a failing coder. -/
def writeDeclaration (M : Module) :
    Nat → Nat → Spacer → GenState → Option (List String × Spacer × GenState)
  | 0, _, _, _ => none
  | fuel + 1, h, sp, st =>
    match runPreds (writeDeclaration M fuel) h (M.decls h).predecessors sp st with
    | none => none
    | some (l1, sp1, st1) =>
      match coderDispatch M h sp1 st1 with
      | none => none
      | some (l2, sp2, st2) => some (l1 ++ l2, sp2, st2)

/-- The body-accumulation loop of `write_module`
(src/wrapid/ctgen/ctypes_code_generator.py lines 403-405). -/
def writeIncluded (M : Module) (fuel : Nat) :
    List Nat → Spacer → GenState → Option (List String × Spacer × GenState)
  | [], sp, st => some ([], sp, st)
  | h :: rest, sp, st =>
    match writeDeclaration M fuel h sp st with
    | none => none
    | some (l1, sp1, st1) =>
      match writeIncluded M fuel rest sp1 st1 with
      | none => none
      | some (l2, sp2, st2) => some (l1 ++ l2, sp2, st2)

/-- One module's lines in `import_code`: the compact one-line form for
fewer than five names, else the parenthesized multi-line form; names
sorted. -/
def importEntry (m : String) (names : List String) : List String :=
  if names.length < 5 then
    ["from " ++ m ++ " import " ++ String.intercalate ", " (pySorted names)]
  else
    ["from " ++ m ++ " import ("] ++
      (pySorted names).map (fun it => "    " ++ it ++ ",") ++ [")"]

/-- `CTypesCodeGenerator.import_code`
(src/wrapid/ctgen/ctypes_code_generator.py lines 206-218). -/
def importCode (st : GenState) (sp : Spacer) : List String × Spacer :=
  if st.imports.isEmpty then ([], sp)
  else
    let (padLines, sp1) := sp.endPad 1
    (sp.padTo 1 ++ (st.imports.map (fun e => importEntry e.1 e.2)).flatten ++ padLines,
     sp1)

/-- `CTypesCodeGenerator.all_section_code`
(src/wrapid/ctgen/ctypes_code_generator.py lines 101-110): nothing when
no cursor was added to the `__all__` set, else the `__all__ = [...]`
stanza listing the recorded cursors' aliases sorted lexicographically. -/
def allSectionCode (M : Module) (st : GenState) (sp : Spacer) :
    List String × Spacer :=
  if st.allCursors.isEmpty then ([], sp)
  else
    let items := pySorted (st.allCursors.map (fun h => (M.decls h).aliasName))
    let (padLines, sp1) := sp.endPad 0
    (sp.padTo 1 ++ ["__all__ = ["] ++
       items.map (fun it => "    \"" ++ it ++ "\",") ++ ["]"] ++ padLines,
     sp1)

/--
`CTypesCodeGenerator.write_module`
(src/wrapid/ctgen/ctypes_code_generator.py lines 389-432): accumulators
cleared, the body accumulated with a fresh spacer whose
`previous_blank_lines` is forced to 0, the optional library-load line
prepended (the `pad_to(0)`/`end_pad(0)` generator expressions created
there are never iterated in the source and so have no effect), then
imports (with a fresh default spacer), the body — with the boundary
blank line dropped when the last import line and the first body line
are both blank (the source's subscript `body_lines[0]` raises on an
empty body, modelled as `none`) — and the `__all__` stanza driven by
the body spacer.  The trailing unexposed-dependency warnings go to the
diagnostic channel, not the artifact.
-/
def writeModule (M : Module) (fuel : Nat) : Option (List String) :=
  let st0 : GenState := ⟨[], []⟩
  let bodySp0 : Spacer := ⟨0, 0⟩
  let (libLines, stLib) :=
    match M.library with
    | none => ([], st0)
    | some (nm, path) =>
      ([nm ++ " = cdll.LoadLibrary(\"" ++ path ++ "\")"],
       st0.setImport "ctypes" "cdll")
  match writeIncluded M fuel M.included bodySp0 stLib with
  | none => none
  | some (declLines, bodySp, st1) =>
    let bodyLines := libLines ++ declLines
    let (importLines, _) := importCode st1 ⟨2, 0⟩
    match importLines.getLast? with
    | some "" =>
      match bodyLines with
      | "" :: bodyRest =>
        some (importLines ++ bodyRest ++ (allSectionCode M st1 bodySp).1)
      | [] => none
      | _ => some (importLines ++ bodyLines ++ (allSectionCode M st1 bodySp).1)
    | _ => some (importLines ++ bodyLines ++ (allSectionCode M st1 bodySp).1)

/--
A top-level cursor as consumed by `TranslationUnitIterable.__iter__`
(src/wrapid/decl.py lines 163-184): its kind, the name of the file it
is located in (`str(cursor.location.file)`), its location line
(`cursor.location.line`, the start of the cursor's name), its extent
end line (`cursor.extent.end.line`), and its hash.
-/
structure TCursor where
  kind : CKind
  file : String
  locLine : Nat
  endLine : Nat
  hash : Nat
  deriving DecidableEq, Repr

/-- Whether a cursor is a preprocessor macro definition of the main
source file — the cursors `__iter__` postpones in its deque. -/
def isDeferred (f : String) (c : TCursor) : Bool :=
  c.file == f && c.kind == CKind.macroDefinition

/--
`TranslationUnitIterable.__iter__` (src/wrapid/decl.py lines 163-184),
with `f` the main source file (`self.parent_cursor.spelling`) and `dq`
the macro deque: macro definitions located in the main file are
postponed; before yielding any other main-file cursor (except
MACRO_INSTANTIATION, which passes straight through) the deque is
drained from the front while the front macro's location line is at most
the cursor's extent end line; cursors from other files are yielded
untouched; remaining macros are drained at the end.  The
`wrapper_index.get` wrapping of each yielded cursor is the identity in
this model.
-/
def tuIterGo (f : String) : List TCursor → List TCursor → List TCursor
  | [], dq => dq
  | c :: rest, dq =>
    if c.file = f then
      if c.kind = CKind.macroInstantiation then
        c :: tuIterGo f rest dq
      else if c.kind = CKind.macroDefinition then
        tuIterGo f rest (dq ++ [c])
      else
        dq.takeWhile (fun m => m.locLine ≤ c.endLine) ++
          c :: tuIterGo f rest (dq.dropWhile (fun m => m.locLine ≤ c.endLine))
    else
      c :: tuIterGo f rest dq

/-- The full iteration: children of the translation unit's cursor, with
an initially empty macro deque. -/
def tuIter (f : String) (cs : List TCursor) : List TCursor :=
  tuIterGo f cs []

/--
Modelled from the spec: the Selection Layer "must re-interleave them by
re-inserting each pending macro just before the first later declaration
whose source line is greater than or equal to the macro's end line,
preserving relative macro order among themselves", remaining macros
drained at the end.  Pending macros are the main-file macro
definitions; the re-insertion points are the main-file declarations
other than macro instantiations (the cursors the code drains at); a
declaration's source line is read as the line its extent ends on (the
comparison point the code realizes), and each pending macro is due —
individually, in pending order — once such a declaration's end line
reaches the macro's end line.
-/
def specReinterleave (f : String) : List TCursor → List TCursor → List TCursor
  | [], pending => pending
  | c :: rest, pending =>
    if c.file = f then
      if c.kind = CKind.macroInstantiation then
        c :: specReinterleave f rest pending
      else if c.kind = CKind.macroDefinition then
        specReinterleave f rest (pending ++ [c])
      else
        pending.filter (fun m => m.endLine ≤ c.endLine) ++
          c :: specReinterleave f rest
                (pending.filter (fun m => ¬ (m.endLine ≤ c.endLine)))
    else
      c :: specReinterleave f rest pending

/--
The generation flags of one wrapped declaration (`DeclWrapper` of
src/wrapid/decl.py): `_included`, `_exported`, and the struct/union
definition mode.  Fresh wrappers start with both flags `False` and mode
FULL.
-/
structure DFlags where
  included : Bool
  exported : Bool
  declType : StructDeclType
  deriving DecidableEq, Repr

def initFlags : DFlags := ⟨false, false, .full⟩

/-- The flag state of every wrapper, keyed by cursor hash; wrappers not
yet touched carry the freshly-constructed flags. -/
def World : Type := Nat → DFlags

def initWorld : World := fun _ => initFlags

def updateW (w : World) (h : Nat) (fl : DFlags) : World :=
  fun h2 => if h2 = h then fl else w h2

/--
One mutation of selection state, as the three inclusion calls of
src/wrapid/decl.py perform it:

* `includeCall` — `DeclWrapper.include(export, before)` (lines 78-83):
  sets `_included = True` and `_exported = export`; the predecessor
  registration on `before` does not touch any flag and is tracked by
  the emitter model, not here.
* `includeForward` — `StructUnionWrapper.include_forward(before,
  export)` (lines 210-215): the original keeps its flags and becomes
  DEFINITION_ONLY; the clone (a fresh wrapper object, here an arbitrary
  hash `fwd`) ends FORWARD_ONLY with `_included = True`,
  `_exported = export` after the closing `include` call.
* `includeOpaque` — `DeclWrapper.include_opaque_type(before, export)`
  (lines 85-92): a fresh OpaqueWrapper is created and immediately
  included, ending with `_included = True`, `_exported = export`.

Each constructor is the net effect of one atomic Python call observed
at its return.
-/
inductive Step : World → World → Prop
  | includeCall (w : World) (d : Nat) (e : Bool) :
      Step w (updateW w d ⟨true, e, (w d).declType⟩)
  | includeForward (w : World) (orig fwd : Nat) (e : Bool) :
      Step w (updateW
                (updateW w orig ⟨(w orig).included, (w orig).exported, .definitionOnly⟩)
                fwd ⟨true, e, .forwardOnly⟩)
  | includeOpaque (w : World) (fwd : Nat) (e : Bool) :
      Step w (updateW w fwd ⟨true, e, .full⟩)

/-- The worlds reachable from the all-fresh initial state by any
sequence of inclusion calls. -/
inductive Reachable : World → Prop
  | init : Reachable initWorld
  | step {w w2 : World} : Reachable w → Step w w2 → Reachable w2

/-- Association-list lookup (Python `dict.get(key, None)`). -/
def alookup {α β : Type} [DecidableEq α] (k : α) : List (α × β) → Option β
  | [] => none
  | (k2, v) :: rest => if k2 = k then some v else alookup k rest

/-- Python's `str.lstrip(" ")`. -/
def lstripSpaces (s : String) : String :=
  List.asString (s.data.dropWhile (fun c => c = ' '))

def spacesStr (n : Nat) : String :=
  List.asString (List.replicate n ' ')

def splitLinesGo : List Char → List Char → List String
  | [], acc => [List.asString acc.reverse]
  | c :: rest, acc =>
    if c = '\n' then List.asString acc.reverse :: splitLinesGo rest []
    else splitLinesGo rest (c :: acc)

/-- Python's `str.splitlines` on the newline-joined comment strings
`_py_comment_from_token` produces (no trailing newline, no other line
separators). -/
def splitLines (s : String) : List String :=
  splitLinesGo s.data []

/--
`CTypesCodeGenerator.right_comment`
(src/wrapid/ctgen/ctypes_code_generator.py lines 220-260).  `tuIx` is
`comment_index.get(cursor.translation_unit)`: per file name, the
`"start_line"` map from line number to the comment tokens starting
there, each token abstracted as the cleaned comment text
`_py_comment_from_token` computes for it (that string munging is
outside these source lines).  `endFile`/`endLine` are
`cursor.extent.end.file`/`.line`.  Branches, in source order: no index
for the translation unit — yield the code line; end location has no
file — yield nothing at all (`return` without a yield); no index for
the file, or no token starting on the end line — yield the code line;
more than one token on the line — assertion failure (`none`);
empty/whitespace-only comment — yield the code line; a comment not
produced by the cleaner — assertion failure; otherwise the code line
with the first comment line appended and the continuation lines
re-indented to align under it.
-/
def rightComment (tuIx : Option (List (String × List (Nat × List String))))
    (endFile : Option String) (endLine : Nat) (nonCommentCode : String) :
    Option (List String) :=
  match tuIx with
  | none => some [nonCommentCode]
  | some fileIxs =>
    match endFile with
    | none => some []
    | some fname =>
      match alookup fname fileIxs with
      | none => some [nonCommentCode]
      | some startLineMap =>
        match alookup endLine startLineMap with
        | none => some [nonCommentCode]
        | some lineIx =>
          match lineIx with
          | [tok] =>
            if tok = "# " ∨ tok = "" then some [nonCommentCode]
            else if ¬ strStarts "# " tok then none
            else
              match splitLines tok with
              | [] => some [nonCommentCode]
              | first :: restLines =>
                let indent1 :=
                  spacesStr (nonCommentCode.length - (lstripSpaces nonCommentCode).length)
                let indent2 :=
                  spacesStr (nonCommentCode.length - indent1.length + 3)
                if restLines.all (fun l => strStarts "# " l) then
                  some ((nonCommentCode ++ "  " ++ first) ::
                    restLines.map (fun l => indent1 ++ "#" ++ indent2 ++ l.drop 2))
                else none
          | _ => none

/-- Claim C4: macro generation emits a binding exactly when the macro
body (the tokens after the macro's name) is one token, or two tokens
whose second is a unary minus; every other shape (zero tokens, three or
more tokens, or a two-token body whose second token is not `-`) is
silently skipped, producing no right-hand side and no error (`macroRhs`
is total). -/
theorem C4_macro_token_shapes (tokens : List String) :
    (macroRhs tokens).isSome ↔
      tokens.length = 1 ∨ (tokens.length = 2 ∧ tokens[1]? = some "-") := by
  match tokens with
  | [] => simp [macroRhs]
  | [t0] => simp [macroRhs]
  | [t0, t1] =>
    by_cases h : t1 = "-" <;> simp [macroRhs, h]
  | t0 :: t1 :: t2 :: rest =>
    simp [macroRhs]

lemma step_preserves_exported_included {w w2 : World} (hs : Step w w2)
    (hw : ∀ d, (w d).exported = true → (w d).included = true) :
    ∀ d, (w2 d).exported = true → (w2 d).included = true := by
  cases hs with
  | includeCall d e =>
    intro d2 hd2
    by_cases hdd : d2 = d
    · subst hdd; simp [updateW]
    · simp only [updateW, if_neg hdd] at hd2 ⊢
      exact hw d2 hd2
  | includeForward orig fwd e =>
    intro d2 hd2
    by_cases hfwd : d2 = fwd
    · subst hfwd; simp [updateW]
    · simp only [updateW, if_neg hfwd] at hd2 ⊢
      by_cases horig : d2 = orig
      · subst horig
        simp only [if_pos rfl] at hd2 ⊢
        exact hw d2 hd2
      · simp only [if_neg horig] at hd2 ⊢
        exact hw d2 hd2
  | includeOpaque fwd e =>
    intro d2 hd2
    by_cases hfwd : d2 = fwd
    · subst hfwd; simp [updateW]
    · simp only [updateW, if_neg hfwd] at hd2 ⊢
      exact hw d2 hd2

/-- Claim C8: for every declaration D and every sequence of calls to
`include`, `include_forward` and `include_opaque_type` (every world
reachable from the all-fresh state), if D's exported flag is set then
D's included flag is set; and the reverse implication does not hold —
some reachable world has a declaration included with export False. -/
theorem C8_exported_implies_included (w : World) (hr : Reachable w) :
    (∀ d : Nat, (w d).exported = true → (w d).included = true) ∧
    (∃ w2 : World, Reachable w2 ∧
      ∃ d : Nat, (w2 d).included = true ∧ (w2 d).exported = false) := by
  constructor
  · induction hr with
    | init => intro d hd; simp [initWorld, initFlags] at hd
    | step _ hs ih => exact step_preserves_exported_included hs ih
  · refine ⟨updateW initWorld 0 ⟨true, false, .full⟩,
      Reachable.step Reachable.init (Step.includeCall initWorld 0 false), 0, ?_⟩
    simp [updateW]

/-- Witness for C8 at the concrete initial world. -/
theorem C8_exported_implies_included_witness :
    (∀ d : Nat, (initWorld d).exported = true → (initWorld d).included = true) ∧
    (∃ w2 : World, Reachable w2 ∧
      ∃ d : Nat, (w2 d).included = true ∧ (w2 d).exported = false) :=
  C8_exported_implies_included initWorld Reachable.init

/-- Claim C9: a typedef whose alias equals the literal rendering of its
mapped underlying type yields no body lines and leaves the generator
state (imports, export set) untouched, for any alias/type pair; a
typedef whose alias differs (absent attached comments) yields exactly
the binding line `alias: type = rendered-type`. -/
theorem C9_noop_typedef (d : Decl) (sp : Spacer) (st : GenState) :
    (wstrC d.underlying (some d.ref) = d.aliasName →
      typedefCode d sp st = ([], sp, st)) ∧
    (wstrC d.underlying (some d.ref) ≠ d.aliasName →
      d.aboveLines = [] → d.rightC = none →
      (typedefCode d sp st).1 =
        [sp.indentStr ++ d.aliasName ++ ": type = " ++ wstrC d.underlying (some d.ref)]) := by
  constructor
  · intro heq
    simp [typedefCode, heq.symm]
  · intro hne ha hrc
    have hcond : ¬ (d.aliasName = wstrC d.underlying (some d.ref)) :=
      fun h => hne h.symm
    simp [typedefCode, hcond, ha, hrc, rightAttach]

def intClangT : ClangType := .mk .int "int" none [] 0

/-- A no-op typedef: alias `c_int` over the 32-bit signed integer
primitive, whose rendering is also `c_int`. -/
def noopTd : Decl :=
  ⟨30, .typedefDecl, "c_int", "c_int", true, .full, [], [], [], intClangT, [], [], [], none⟩

/-- The round-trip typedef of the spec: alias `IntAlias` over the
32-bit signed integer primitive. -/
def intTd : Decl :=
  ⟨31, .typedefDecl, "IntAlias", "IntAlias", true, .full, [], [], [], intClangT, [], [], [], none⟩

/-- Witness for C9: the no-op typedef yields nothing and changes no
state; the genuine typedef yields its binding line. -/
theorem C9_noop_typedef_witness :
    typedefCode noopTd ⟨0, 0⟩ ⟨[], []⟩ = ([], ⟨0, 0⟩, ⟨[], []⟩) ∧
    (typedefCode intTd ⟨0, 0⟩ ⟨[], []⟩).1 =
      [Spacer.indentStr ⟨0, 0⟩ ++ intTd.aliasName ++ ": type = " ++
        wstrC intTd.underlying (some intTd.ref)] :=
  ⟨(C9_noop_typedef noopTd ⟨0, 0⟩ ⟨[], []⟩).1 rfl,
   (C9_noop_typedef intTd ⟨0, 0⟩ ⟨[], []⟩).2 (by decide) rfl rfl⟩

/-- Claim C10 (code bug): `right_comment` is supposed to yield the
given code line exactly once, augmented or not; but when the comment
index holds the cursor's translation unit while the cursor's extent end
location has no file, the source's `return` without a yield
(src/wrapid/ctgen/ctypes_code_generator.py lines 232-233) drops the
code line entirely — unlike every sibling early-exit branch, which
yields the line. -/
theorem C10_right_comment_drops_line :
    rightComment (some []) none 3 "x = 1" = some [] ∧
    (some [] : Option (List String)) ≠ some ["x = 1"] :=
  ⟨rfl, by decide⟩

def noClangT : ClangType := .mk .otherType "" none [] 0

/-- A macro declaration wrapper for the emitter examples. -/
def mkMacroDecl (h : Nat) (nm : String) (toks : List String) (exp : Bool)
    (preds : List Nat) : Decl :=
  ⟨h, .macroDefinition, nm, nm, exp, .full, [], [], toks, noClangT, [], preds, [], none⟩

/-- Macros A and B both included, macro P registered as predecessor of
each (`P.include(before=A)` then `P.include(before=B)`). -/
def dupModule : Module :=
  ⟨fun h =>
    if h = 1 then mkMacroDecl 1 "A" ["2"] false [0]
    else if h = 2 then mkMacroDecl 2 "B" ["3"] false [0]
    else mkMacroDecl 0 "P" ["1"] false [],
   [1, 2], none⟩

/-- Claim C1 (code bug): each included declaration's code should appear
in the emitted body at most once, but `_write_declaration` keeps no
record of already-emitted declarations (the source's
`TODO: check if its already exported first`), so a declaration that is
a predecessor of two included declarations has its binding line
generated once per dependent: here `P = 1` appears twice in the
artifact. -/
theorem C1_shared_predecessor_emitted_twice :
    writeModule dupModule 5 =
      some ["P = 1", "A = 2", "P = 1", "B = 3", "",
            "__all__ = [", "    \"A\",", "    \"B\",", "    \"P\",", "]"] ∧
    ((writeModule dupModule 5).getD []).count "P = 1" = 2 := by
  exact ⟨by decide, by decide⟩

/-- One macro, included but with `export=False`. -/
def unexportedMacroModule : Module :=
  ⟨fun _ => mkMacroDecl 0 "DCTSIZE" ["8"] false [], [0], none⟩

/-- Claim C3 (code bug): the export list should name exactly the
aliases of declarations marked exported, but `macro_code` adds every
generated macro to the `__all__` set unconditionally (the source's
`TODO: but only if exported...`): a macro included with `export=False`
still appears in the emitted `__all__` stanza. -/
theorem C3_unexported_macro_in_export_list :
    (unexportedMacroModule.decls 0).exported = false ∧
    writeModule unexportedMacroModule 3 =
      some ["DCTSIZE = 8", "", "__all__ = [", "    \"DCTSIZE\",", "]"] := by
  exact ⟨rfl, by decide⟩

/-- Two included macros that are predecessors of each other — a
predecessor cycle of length two, with no self-loop. -/
def cycleModule : Module :=
  ⟨fun h =>
    if h = 1 then mkMacroDecl 1 "CB" ["2"] false [0]
    else mkMacroDecl 0 "CA" ["1"] false [1],
   [0], none⟩

lemma cycleModule_stuck (n : Nat) :
    (∀ sp st, writeDeclaration cycleModule n 0 sp st = none) ∧
    (∀ sp st, writeDeclaration cycleModule n 1 sp st = none) := by
  induction n with
  | zero => exact ⟨fun _ _ => rfl, fun _ _ => rfl⟩
  | succ n ih =>
    constructor
    · intro sp st
      have hpreds : (cycleModule.decls 0).predecessors = [1] := rfl
      simp only [writeDeclaration]
      rw [hpreds]
      simp only [runPreds, if_neg (by decide : ¬ ((1 : Nat) = 0)), ih.2 sp st]
    · intro sp st
      have hpreds : (cycleModule.decls 1).predecessors = [0] := rfl
      simp only [writeDeclaration]
      rw [hpreds]
      simp only [runPreds, if_neg (by decide : ¬ ((0 : Nat) = 1)), ih.1 sp st]

/-- Counterexample to claim C2 as stated: on a predecessor cycle of two
declarations the depth-first emission of `_write_declaration` does not
terminate — no amount of fuel completes it — because only a direct
self-loop (`dep is decl`) is skipped, and neither declaration of the
cycle is its own predecessor. -/
theorem C2_cycle_divergence :
    ¬ ∃ n : Nat, (writeDeclaration cycleModule n 0 ⟨0, 0⟩ ⟨[], []⟩).isSome := by
  rintro ⟨n, hn⟩
  rw [(cycleModule_stuck n).1 ⟨0, 0⟩ ⟨[], []⟩] at hn
  simp at hn

lemma runPreds_isSome
    (wd : Nat → Spacer → GenState → Option (List String × Spacer × GenState))
    (selfHash : Nat) (ds : List Nat)
    (hwd : ∀ p ∈ ds, p ≠ selfHash → ∀ sp st, (wd p sp st).isSome) :
    ∀ sp st, (runPreds wd selfHash ds sp st).isSome := by
  induction ds with
  | nil => intro sp st; rfl
  | cons p ps ih =>
    intro sp st
    by_cases hp : p = selfHash
    · simp only [runPreds, if_pos hp]
      exact ih (fun q hq => hwd q (List.mem_cons_of_mem p hq)) sp st
    · obtain ⟨⟨l1, sp1, st1⟩, hv⟩ :=
        Option.isSome_iff_exists.mp (hwd p (List.mem_cons_self p ps) hp sp st)
      obtain ⟨⟨l2, sp2, st2⟩, hv2⟩ :=
        Option.isSome_iff_exists.mp
          (ih (fun q hq => hwd q (List.mem_cons_of_mem p hq)) sp1 st1)
      simp only [runPreds, if_neg hp, hv, hv2]
      rfl

/-- The declaration kinds whose generator the dispatch supports without
external state (everything but functions, which need the library
handle, and the kinds absent from the dispatch dict). -/
def supportedKind (k : CKind) : Bool :=
  match k with
  | .enumDecl => true
  | .macroDefinition => true
  | .opaqueDecl => true
  | .structDecl => true
  | .typedefDecl => true
  | .unionDecl => true
  | _ => false

lemma coderDispatch_isSome (M : Module) (h : Nat)
    (hk : supportedKind (M.decls h).kind = true) :
    ∀ sp st, (coderDispatch M h sp st).isSome := by
  intro sp st
  simp only [coderDispatch]
  rcases hkind : (M.decls h).kind <;>
    simp [supportedKind, hkind] at hk ⊢ <;>
    simp [enumCode, macroCode, structCode, unionCode, hkind]
  cases macroRhs (M.decls h).tokensAfterName <;> simp

lemma writeDeclaration_isSome_of_measure (M : Module) (m : Nat → Nat)
    (hm : ∀ d p, p ∈ (M.decls d).predecessors → p ≠ d → m p < m d)
    (hk : ∀ h : Nat, supportedKind (M.decls h).kind = true) :
    ∀ n d, m d < n → ∀ sp st, (writeDeclaration M n d sp st).isSome := by
  intro n
  induction n with
  | zero => intro d hd; omega
  | succ n ih =>
    intro d hd sp st
    have hpre : (runPreds (writeDeclaration M n) d (M.decls d).predecessors sp st).isSome := by
      refine runPreds_isSome _ _ _ ?_ sp st
      intro p hp hpd sp2 st2
      exact ih p (by have := hm d p hp hpd; omega) sp2 st2
    obtain ⟨⟨l1, sp1, st1⟩, hv⟩ := Option.isSome_iff_exists.mp hpre
    obtain ⟨⟨l2, sp2, st2⟩, hv2⟩ :=
      Option.isSome_iff_exists.mp (coderDispatch_isSome M d (hk d) sp1 st1)
    simp only [writeDeclaration, hv, hv2]
    rfl

/-- Claim C2, amended: the depth-first predecessor emission terminates
for every predecessor graph whose non-self-loop predecessor relation is
well-founded (witnessed by a numeric measure that strictly drops along
every predecessor edge that is not a self-loop), provided every
declaration's kind has a supported generator; only a predecessor that
is the declaration itself is skipped, and (per the counterexample) a
cycle of two or more declarations makes the recursion diverge. -/
theorem C2_acyclic_termination (M : Module) (m : Nat → Nat)
    (hm : ∀ d p, p ∈ (M.decls d).predecessors → p ≠ d → m p < m d)
    (hk : ∀ h : Nat, supportedKind (M.decls h).kind = true) :
    ∀ d sp st, ∃ n : Nat, (writeDeclaration M n d sp st).isSome := by
  intro d sp st
  exact ⟨m d + 1,
    writeDeclaration_isSome_of_measure M m hm hk (m d + 1) d (by omega) sp st⟩

/-- A two-declaration chain: macro 0 is a predecessor of macro 1, no
cycle. -/
def chainModule : Module :=
  ⟨fun h =>
    if h = 1 then mkMacroDecl 1 "HI" ["2"] false [0]
    else mkMacroDecl 0 "LO" ["1"] false [],
   [1], none⟩

/-- Witness for the amended C2 at the concrete two-declaration chain,
with the identity measure. -/
theorem C2_acyclic_termination_witness :
    ∃ n : Nat, (writeDeclaration chainModule n 1 ⟨0, 0⟩ ⟨[], []⟩).isSome := by
  refine C2_acyclic_termination chainModule (fun h => h) ?_ ?_ 1 ⟨0, 0⟩ ⟨[], []⟩
  · intro d p hp hpd
    show p < d
    by_cases hd : d = 1
    · subst hd
      simp [chainModule, mkMacroDecl] at hp
      omega
    · simp [chainModule, mkMacroDecl, hd] at hp
  · intro h
    by_cases hd : h = 1 <;> simp [chainModule, mkMacroDecl, hd, supportedKind]

/-- Claim C6: for every pointer type given to the type mapper, a
pointee of signed or plain char kind maps to the byte-string primitive
`c_char_p`, a wide-char pointee to `c_wchar_p`, a void pointee to
`c_void_p`, a function-prototype pointee to the callable-signature
(CFUNCTYPE) wrapper over the pointee, and every other pointee to the
generic `PointerType` wrapper, whose dependencies include the pointee's
declaration whenever the pointee carries one (array, elaborated and
pointer pointees never carry a declaration in clang, and their mapped
classes forward to component dependencies instead, so they are set
aside). -/
theorem C6_pointer_mapping (spl : String) (od : Option CursorRef) (pt : ClangType)
    (rest : List ClangType) (n : Nat) (p : Option CursorRef) :
    ((pt.kind = .char_s ∨ pt.kind = .schar) →
      wTypeForClangType (.mk .pointer spl od (pt :: rest) n) p =
        .primitive (.mk .pointer spl od (pt :: rest) n) "c_char_p") ∧
    (pt.kind = .wchar →
      wTypeForClangType (.mk .pointer spl od (pt :: rest) n) p =
        .primitive (.mk .pointer spl od (pt :: rest) n) "c_wchar_p") ∧
    (pt.kind = .void →
      wTypeForClangType (.mk .pointer spl od (pt :: rest) n) p =
        .primitive (.mk .pointer spl od (pt :: rest) n) "c_void_p") ∧
    (pt.kind = .functionProto →
      wTypeForClangType (.mk .pointer spl od (pt :: rest) n) p = .functionPointer pt) ∧
    (pt.kind ∉ ([.char_s, .schar, .functionProto, .void, .wchar] : List TypeKind) →
      wTypeForClangType (.mk .pointer spl od (pt :: rest) n) p =
        .pointer (.mk .pointer spl od (pt :: rest) n) ∧
      (∀ c : CursorRef, pt.declaration = some c →
        pt.kind ∉ ([.constantArray, .elaborated, .pointer] : List TypeKind) →
        c ∈ wdepsC (.mk .pointer spl od (pt :: rest) n) p)) := by
  refine ⟨?_, ?_, ?_, ?_, ?_⟩
  · rintro (h | h) <;> simp [wTypeForClangType, primitiveCtypeForClangType, h]
  · intro h
    simp [wTypeForClangType, primitiveCtypeForClangType, h]
  · intro h
    simp [wTypeForClangType, primitiveCtypeForClangType, h]
  · intro h
    simp [wTypeForClangType, primitiveCtypeForClangType, h]
  · intro h
    have h5 : ¬ (pt.kind = .char_s ∨ pt.kind = .schar) ∧ pt.kind ≠ .functionProto ∧
        pt.kind ≠ .void ∧ pt.kind ≠ .wchar := by
      simp at h
      tauto
    obtain ⟨h1, h2, h3, h4⟩ := h5
    constructor
    · simp [wTypeForClangType, primitiveCtypeForClangType, h1, h2, h3, h4]
    · intro c hc h6
      have h7 : pt.kind ≠ .constantArray ∧ pt.kind ≠ .elaborated ∧ pt.kind ≠ .pointer := by
        simpa using h6
      have hmem : c ∈ wdepsC pt none := by
        obtain ⟨k2, s2, d2, sub2, n2⟩ := pt
        simp only [ClangType.kind] at h1 h2 h3 h4 h7
        simp only [ClangType.declaration] at hc
        subst hc
        cases k2 <;> simp_all [wdepsC, primitiveCtypeForClangType]
      rw [wdepsC]
      simp only [primitiveCtypeForClangType]
      rw [if_neg h1, if_neg h2, if_neg h3, if_neg h4]
      exact List.mem_append_right _ hmem

def fooRef : CursorRef := ⟨42, .structDecl, "Foo", []⟩

def fooT : ClangType := .mk .otherType "struct Foo" (some fooRef) [] 0

/-- Witness for C6 at a concrete pointer-to-struct type: the generic
pointer mapping applies and the struct declaration is registered as a
dependency. -/
theorem C6_pointer_mapping_witness :
    wTypeForClangType (.mk .pointer "struct Foo *" none [fooT] 0) none =
      .pointer (.mk .pointer "struct Foo *" none [fooT] 0) ∧
    fooRef ∈ wdepsC (.mk .pointer "struct Foo *" none [fooT] 0) none :=
  ⟨((C6_pointer_mapping "struct Foo *" none fooT [] 0 none).2.2.2.2 (by decide)).1,
   ((C6_pointer_mapping "struct Foo *" none fooT [] 0 none).2.2.2.2 (by decide)).2
      fooRef rfl (by decide)⟩

/-- The single field-descriptor line `field_code` emits for a field
carrying no comments. -/
def fieldDescriptorLine (sp : Spacer) (f : FieldDecl) : String :=
  sp.indentStr ++ "(\"" ++ f.aliasName ++ "\", " ++ fieldTypeName f ++ "),"

/-- One blank line between consecutive elements — the separating rule
of the field loop. -/
def blankSep : List String → List String
  | [] => []
  | [l] => [l]
  | l :: l2 :: rest => l :: "" :: blankSep (l2 :: rest)

lemma fieldCode_no_comments (f : FieldDecl) (sp : Spacer) (st : GenState)
    (ha : f.aboveLines = []) (hr : f.rightC = none) :
    (fieldCode f sp st).1 = [fieldDescriptorLine sp f] := by
  simp [fieldCode, fieldDescriptorLine, ha, hr, rightAttach]

lemma fieldsBlockTail_no_comments (fs : List FieldDecl) (sp : Spacer) :
    ∀ st : GenState, (∀ f ∈ fs, f.aboveLines = [] ∧ f.rightC = none) →
      (fieldsBlockTail fs sp st).1 =
        (fs.map (fun f => ["", fieldDescriptorLine sp f])).flatten := by
  induction fs with
  | nil => intro st _; rfl
  | cons f rest ih =>
    intro st h
    have hf := h f (List.mem_cons_self f rest)
    have hrest := fun g hg => h g (List.mem_cons_of_mem f hg)
    simp only [fieldsBlockTail]
    simp [fieldCode_no_comments f sp st hf.1 hf.2, ih _ hrest]

lemma blankSep_head_tail (x : String) (xs : List String) :
    blankSep (x :: xs) = x :: (xs.map (fun l => ["", l])).flatten := by
  induction xs generalizing x with
  | nil => rfl
  | cons y rest ih => simp [blankSep, ih y]

lemma fieldsBlock_no_comments (fs : List FieldDecl) (sp : Spacer) (st : GenState)
    (h : ∀ f ∈ fs, f.aboveLines = [] ∧ f.rightC = none) :
    (fieldsBlock fs sp st).1 = blankSep (fs.map (fieldDescriptorLine sp)) := by
  cases fs with
  | nil => rfl
  | cons f rest =>
    have hf := h f (List.mem_cons_self f rest)
    have hrest := fun g hg => h g (List.mem_cons_of_mem f hg)
    simp only [fieldsBlock]
    simp [fieldCode_no_comments f sp st hf.1 hf.2,
          fieldsBlockTail_no_comments rest sp _ hrest,
          blankSep_head_tail, List.map_map]
    rfl

lemma blankSep_length (l : List String) :
    (blankSep l).length = if l = [] then 0 else 2 * l.length - 1 := by
  induction l with
  | nil => rfl
  | cons x xs ih =>
    cases xs with
    | nil => rfl
    | cons y rest =>
      have ih2 : (blankSep (y :: rest)).length = 2 * (y :: rest).length - 1 := by
        rw [ih, if_neg (List.cons_ne_nil y rest)]
      rw [if_neg (List.cons_ne_nil x (y :: rest))]
      simp only [blankSep, List.length_cons] at ih2 ⊢
      omega

lemma blankSep_count_blank (l : List String) (hl : ∀ x ∈ l, x ≠ "") :
    (blankSep l).count "" = l.length - 1 := by
  induction l with
  | nil => rfl
  | cons x xs ih =>
    cases xs with
    | nil =>
      simp [blankSep, List.count_cons, hl x (List.mem_cons_self x [])]
    | cons y rest =>
      have hx := hl x (List.mem_cons_self x (y :: rest))
      have hxs := fun z hz => hl z (List.mem_cons_of_mem x hz)
      have ih2 := ih hxs
      simp only [blankSep, List.count_cons] at ih2 ⊢
      simp [hx, ih2]

lemma fieldDescriptorLine_ne_blank (sp : Spacer) (f : FieldDecl) :
    fieldDescriptorLine sp f ≠ "" := by
  intro h
  have hlen := congrArg String.length h
  have e1 : ("(\"" : String).length = 2 := rfl
  have e2 : ("\", " : String).length = 3 := rfl
  have e3 : (")," : String).length = 2 := rfl
  have e4 : ("" : String).length = 0 := rfl
  simp only [fieldDescriptorLine, String.length_append, e1, e2, e3, e4] at hlen
  omega

/-- Claim C7: a struct or union emitted in full-definition mode with N
fields generates (after the blank-line padding and the class header)
the line opening the field list, the N field-descriptor lines with
exactly N−1 separating blank lines between consecutive fields (absent
per-field comments), and the closing parenthesis; with N = 0 the body
is the explicit `pass` marker, never an empty parenthesized list. -/
theorem C7_struct_field_layout (d : Decl) (ctn : String) (sp : Spacer) (st : GenState)
    (hfull : d.declType = .full)
    (hnc : ∀ f ∈ d.flds, f.aboveLines = [] ∧ f.rightC = none) :
    (structUnionCode d sp ctn st).1 =
      sp.padTo 2 ++
        [sp.indentStr ++ "class " ++ d.aliasName ++ "(" ++ ctn ++ "):"] ++
        (if d.flds.length = 0 then [sp.indented.indentStr ++ "pass"]
         else [sp.indented.indentStr ++ "_fields_ = ("] ++
              blankSep (d.flds.map (fieldDescriptorLine sp.indented.indented)) ++
              [sp.indented.indentStr ++ ")"]) ++
        ["", ""] ∧
    (blankSep (d.flds.map (fieldDescriptorLine sp.indented.indented))).length =
      (if d.flds.length = 0 then 0 else 2 * d.flds.length - 1) ∧
    (blankSep (d.flds.map (fieldDescriptorLine sp.indented.indented))).count "" =
      d.flds.length - 1 := by
  refine ⟨?_, ?_, ?_⟩
  · by_cases hfs : d.flds = []
    · simp [structUnionCode, hfull, hfs, Spacer.endPad, fieldsBlock]
    · have hpos : 0 < d.flds.length := List.length_pos.mpr hfs
      have hne0 : ¬ (d.flds.length = 0) := by omega
      simp only [structUnionCode, hfull]
      simp only [if_neg (by simp : ¬ (StructDeclType.full = StructDeclType.forwardOnly)),
                 if_neg (by simp : ¬ (StructDeclType.full = StructDeclType.definitionOnly))]
      simp [hpos, hne0, Spacer.endPad,
            fieldsBlock_no_comments d.flds sp.indented.indented _ hnc]
  · rw [blankSep_length]
    by_cases hfs : d.flds = [] <;> simp [hfs]
  · rw [blankSep_count_blank]
    · simp
    · intro x hx
      obtain ⟨f, _, hf⟩ := List.mem_map.mp hx
      rw [← hf]
      exact fieldDescriptorLine_ne_blank _ f

def fInt : FieldDecl :=
  ⟨"number", .mk .int "int" none [] 0, ⟨10, .fieldDecl, "number", []⟩, none, [], none⟩

def fChar : FieldDecl :=
  ⟨"letter", .mk .char_s "char" none [] 0, ⟨11, .fieldDecl, "letter", []⟩, none, [], none⟩

/-- The two-field structure of src/tests/data/simple_struct_ctypes_expected.py. -/
def myStructureDecl : Decl :=
  ⟨20, .structDecl, "MyStructure", "MyStructure", true, .full, [fInt, fChar],
   [], [], noClangT, [], [], [], none⟩

/-- Witness for C7 at the concrete two-field structure. -/
theorem C7_struct_field_layout_witness :
    (structUnionCode myStructureDecl ⟨0, 0⟩ "Structure" ⟨[], []⟩).1 =
      Spacer.padTo ⟨0, 0⟩ 2 ++
        [Spacer.indentStr ⟨0, 0⟩ ++ "class " ++ myStructureDecl.aliasName ++
          "(" ++ "Structure" ++ "):"] ++
        (if myStructureDecl.flds.length = 0 then
          [(Spacer.indented ⟨0, 0⟩).indentStr ++ "pass"]
         else [(Spacer.indented ⟨0, 0⟩).indentStr ++ "_fields_ = ("] ++
              blankSep (myStructureDecl.flds.map
                (fieldDescriptorLine (Spacer.indented (Spacer.indented ⟨0, 0⟩)))) ++
              [(Spacer.indented ⟨0, 0⟩).indentStr ++ ")"]) ++
        ["", ""] ∧
    (blankSep (myStructureDecl.flds.map
        (fieldDescriptorLine (Spacer.indented (Spacer.indented ⟨0, 0⟩))))).length =
      (if myStructureDecl.flds.length = 0 then 0
       else 2 * myStructureDecl.flds.length - 1) ∧
    (blankSep (myStructureDecl.flds.map
        (fieldDescriptorLine (Spacer.indented (Spacer.indented ⟨0, 0⟩))))).count "" =
      myStructureDecl.flds.length - 1 :=
  C7_struct_field_layout myStructureDecl "Structure" ⟨0, 0⟩ ⟨[], []⟩ rfl (by decide)

lemma isDeferred_iff (f : String) (c : TCursor) :
    isDeferred f c = true ↔ (c.file = f ∧ c.kind = CKind.macroDefinition) := by
  simp [isDeferred]

lemma takeWhile_eq_filter_of_sorted {α : Type} (p : α → Bool) (R : α → α → Prop)
    (hmono : ∀ a b, R a b → p b = true → p a = true) :
    ∀ l : List α, l.Pairwise R → l.takeWhile p = l.filter p := by
  intro l hl
  induction l with
  | nil => rfl
  | cons a t ih =>
    rcases List.pairwise_cons.mp hl with ⟨hat, ht⟩
    by_cases hpa : p a = true
    · simp [List.takeWhile_cons, List.filter_cons, hpa, ih ht]
    · have hall : ∀ b ∈ t, ¬ p b = true :=
        fun b hb hpb => hpa (hmono a b (hat b hb) hpb)
      simp only [List.takeWhile_cons, List.filter_cons,
        Bool.not_eq_true] at hpa ⊢
      rw [hpa]
      simp only [Bool.false_eq_true, if_false]
      symm
      rw [List.filter_eq_nil_iff]
      intro b hb
      simpa using hall b hb

lemma dropWhile_eq_filter_not_of_sorted {α : Type} (p : α → Bool) (R : α → α → Prop)
    (hmono : ∀ a b, R a b → p b = true → p a = true) :
    ∀ l : List α, l.Pairwise R → l.dropWhile p = l.filter (fun x => !(p x)) := by
  intro l hl
  induction l with
  | nil => rfl
  | cons a t ih =>
    rcases List.pairwise_cons.mp hl with ⟨hat, ht⟩
    by_cases hpa : p a = true
    · simp [List.dropWhile_cons, List.filter_cons, hpa, ih ht]
    · have hall : ∀ b ∈ t, ¬ p b = true :=
        fun b hb hpb => hpa (hmono a b (hat b hb) hpb)
      have hfa : t.filter (fun x => !(p x)) = t := by
        rw [List.filter_eq_self]
        intro b hb
        simpa using hall b hb
      simp only [Bool.not_eq_true] at hpa
      simp [List.dropWhile_cons, List.filter_cons, hpa, hfa]

lemma tuIterGo_perm (f : String) :
    ∀ (cs dq : List TCursor), (tuIterGo f cs dq).Perm (cs ++ dq) := by
  intro cs
  induction cs with
  | nil => intro dq; simp [tuIterGo]
  | cons c rest ih =>
    intro dq
    by_cases hf : c.file = f
    · by_cases hmi : c.kind = CKind.macroInstantiation
      · simp only [tuIterGo, if_pos hf, if_pos hmi, List.cons_append]
        exact List.Perm.cons c (ih dq)
      · by_cases hmd : c.kind = CKind.macroDefinition
        · simp only [tuIterGo, if_pos hf, if_neg hmi, if_pos hmd, List.cons_append]
          have h1 : (tuIterGo f rest (dq ++ [c])).Perm (rest ++ (dq ++ [c])) := ih _
          have h2 : (rest ++ (dq ++ [c])).Perm (c :: (rest ++ dq)) := by
            have h3 : ((rest ++ dq) ++ [c]).Perm (c :: (rest ++ dq)) :=
              List.perm_append_singleton c (rest ++ dq)
            simpa [List.append_assoc] using h3
          exact h1.trans h2
        · simp only [tuIterGo, if_pos hf, if_neg hmi, if_neg hmd, List.cons_append]
          set p := fun m : TCursor => decide (m.locLine ≤ c.endLine) with hp
          have h1 : (tuIterGo f rest (dq.dropWhile p)).Perm (rest ++ dq.dropWhile p) :=
            ih _
          have h2 : (dq.takeWhile p ++ c :: tuIterGo f rest (dq.dropWhile p)).Perm
              (dq.takeWhile p ++ c :: (rest ++ dq.dropWhile p)) :=
            List.Perm.append_left _ (List.Perm.cons c h1)
          have h3 : (dq.takeWhile p ++ c :: (rest ++ dq.dropWhile p)).Perm
              (c :: (dq.takeWhile p ++ (rest ++ dq.dropWhile p))) :=
            List.perm_middle
          have h4 : (dq.takeWhile p ++ (rest ++ dq.dropWhile p)).Perm
              (rest ++ (dq.takeWhile p ++ dq.dropWhile p)) := by
            have h5 : ((dq.takeWhile p ++ rest) ++ dq.dropWhile p).Perm
                ((rest ++ dq.takeWhile p) ++ dq.dropWhile p) :=
              List.Perm.append_right _ List.perm_append_comm
            simpa [List.append_assoc] using h5
          have h6 : dq.takeWhile p ++ dq.dropWhile p = dq :=
            List.takeWhile_append_dropWhile p dq
          rw [h6] at h4
          exact h2.trans (h3.trans (List.Perm.cons c h4))
    · simp only [tuIterGo, if_neg hf, List.cons_append]
      exact List.Perm.cons c (ih dq)

lemma tuIterGo_filter (f : String) :
    ∀ (cs dq : List TCursor), (∀ m ∈ dq, isDeferred f m = true) →
      (tuIterGo f cs dq).filter (isDeferred f) = dq ++ cs.filter (isDeferred f) := by
  intro cs
  induction cs with
  | nil =>
    intro dq hdq
    simp [tuIterGo, List.filter_eq_self.mpr hdq]
  | cons c rest ih =>
    intro dq hdq
    by_cases hf : c.file = f
    · by_cases hmi : c.kind = CKind.macroInstantiation
      · have hc : isDeferred f c = false := by
          simp [isDeferred, hmi, hf]
        simp only [tuIterGo, if_pos hf, if_pos hmi, List.filter_cons, hc]
        simp only [Bool.false_eq_true, if_false]
        exact ih dq hdq
      · by_cases hmd : c.kind = CKind.macroDefinition
        · have hc : isDeferred f c = true := by
            simp [isDeferred, hmi, hf, hmd]
          have hdq2 : ∀ m ∈ dq ++ [c], isDeferred f m = true := by
            intro m hm
            rcases List.mem_append.mp hm with hm | hm
            · exact hdq m hm
            · simp only [List.mem_singleton] at hm
              subst hm; exact hc
          simp only [tuIterGo, if_pos hf, if_neg hmi, if_pos hmd, List.filter_cons, hc]
          rw [ih (dq ++ [c]) hdq2]
          simp
        · have hc : isDeferred f c = false := by
            simp [isDeferred, hmd, hf]
          set p := fun m : TCursor => decide (m.locLine ≤ c.endLine) with hp
          have hdq2 : ∀ m ∈ dq.dropWhile p, isDeferred f m = true :=
            fun m hm => hdq m ((List.dropWhile_sublist p).subset hm)
          have htk : (dq.takeWhile p).filter (isDeferred f) = dq.takeWhile p :=
            List.filter_eq_self.mpr
              (fun m hm => hdq m ((List.takeWhile_sublist p).subset hm))
          simp only [tuIterGo, if_pos hf, if_neg hmi, if_neg hmd, List.filter_append,
            List.filter_cons, hc]
          simp only [Bool.false_eq_true, if_false]
          rw [htk, ih (dq.dropWhile p) hdq2, ← List.append_assoc,
            List.takeWhile_append_dropWhile]
    · have hc : isDeferred f c = false := by
        simp [isDeferred, hf]
      simp only [tuIterGo, if_neg hf, List.filter_cons, hc]
      simp only [Bool.false_eq_true, if_false]
      exact ih dq hdq

lemma tuIterGo_eq_spec (f : String) :
    ∀ (cs dq : List TCursor),
      (∀ m ∈ dq, isDeferred f m = true) →
      (∀ m ∈ dq ++ cs.filter (isDeferred f), m.locLine = m.endLine) →
      ((dq ++ cs.filter (isDeferred f)).Pairwise
        (fun a b => a.locLine ≤ b.locLine)) →
      tuIterGo f cs dq = specReinterleave f cs dq := by
  intro cs
  induction cs with
  | nil => intro dq _ _ _; rfl
  | cons c rest ih =>
    intro dq hdq hml hsort
    by_cases hf : c.file = f
    · by_cases hmi : c.kind = CKind.macroInstantiation
      · have hc : isDeferred f c = false := by simp [isDeferred, hmi]
        have hfe : (c :: rest).filter (isDeferred f) = rest.filter (isDeferred f) := by
          simp [List.filter_cons, hc]
        rw [hfe] at hml hsort
        simp only [tuIterGo, specReinterleave, if_pos hf, if_pos hmi]
        rw [ih dq hdq hml hsort]
      · by_cases hmd : c.kind = CKind.macroDefinition
        · have hc : isDeferred f c = true := by simp [isDeferred, hf, hmd]
          have hfe : (c :: rest).filter (isDeferred f) =
              c :: rest.filter (isDeferred f) := by
            simp [List.filter_cons, hc]
          rw [hfe] at hml hsort
          have hassoc : dq ++ c :: rest.filter (isDeferred f) =
              (dq ++ [c]) ++ rest.filter (isDeferred f) := by simp
          rw [hassoc] at hml hsort
          have hdq2 : ∀ m ∈ dq ++ [c], isDeferred f m = true := by
            intro m hm
            rcases List.mem_append.mp hm with hm | hm
            · exact hdq m hm
            · simp only [List.mem_singleton] at hm
              subst hm; exact hc
          simp only [tuIterGo, specReinterleave, if_pos hf, if_neg hmi, if_pos hmd]
          exact ih (dq ++ [c]) hdq2 hml hsort
        · have hc : isDeferred f c = false := by simp [isDeferred, hmd]
          have hfe : (c :: rest).filter (isDeferred f) = rest.filter (isDeferred f) := by
            simp [List.filter_cons, hc]
          rw [hfe] at hml hsort
          have hdqsort : dq.Pairwise (fun a b : TCursor => a.locLine ≤ b.locLine) :=
            (List.pairwise_append.mp hsort).1
          have hmono : ∀ a b : TCursor, a.locLine ≤ b.locLine →
              (fun m : TCursor => decide (m.locLine ≤ c.endLine)) b = true →
              (fun m : TCursor => decide (m.locLine ≤ c.endLine)) a = true := by
            intro a b hR hpb
            simp only [decide_eq_true_eq] at hpb ⊢
            omega
          have htake : dq.takeWhile (fun m => decide (m.locLine ≤ c.endLine)) =
              dq.filter (fun m => decide (m.endLine ≤ c.endLine)) := by
            rw [takeWhile_eq_filter_of_sorted
              (fun m : TCursor => decide (m.locLine ≤ c.endLine))
              (fun a b : TCursor => a.locLine ≤ b.locLine) hmono dq hdqsort]
            apply List.filter_congr
            intro m hm
            simp only [hml m (List.mem_append_left _ hm)]
          have hdrop : dq.dropWhile (fun m => decide (m.locLine ≤ c.endLine)) =
              dq.filter (fun m => decide (¬ (m.endLine ≤ c.endLine))) := by
            rw [dropWhile_eq_filter_not_of_sorted
              (fun m : TCursor => decide (m.locLine ≤ c.endLine))
              (fun a b : TCursor => a.locLine ≤ b.locLine) hmono dq hdqsort]
            apply List.filter_congr
            intro m hm
            simp only [hml m (List.mem_append_left _ hm), decide_not]
          have hdq2 : ∀ m ∈ dq.filter (fun m => decide (¬ (m.endLine ≤ c.endLine))),
              isDeferred f m = true :=
            fun m hm => hdq m (List.mem_of_mem_filter hm)
          have hsub : (dq.filter (fun m => decide (¬ (m.endLine ≤ c.endLine))) ++
              rest.filter (isDeferred f)).Sublist (dq ++ rest.filter (isDeferred f)) :=
            List.Sublist.append (List.filter_sublist dq) (List.Sublist.refl _)
          have hml2 : ∀ m ∈ dq.filter (fun m => decide (¬ (m.endLine ≤ c.endLine))) ++
              rest.filter (isDeferred f), m.locLine = m.endLine :=
            fun m hm => hml m (hsub.subset hm)
          have hsort2 := hsort.sublist hsub
          simp only [tuIterGo, specReinterleave, if_pos hf, if_neg hmi, if_neg hmd]
          rw [htake, hdrop, ih _ hdq2 hml2 hsort2]
    · have hc : isDeferred f c = false := by simp [isDeferred, hf]
      have hfe : (c :: rest).filter (isDeferred f) = rest.filter (isDeferred f) := by
        simp [List.filter_cons, hc]
      rw [hfe] at hml hsort
      simp only [tuIterGo, specReinterleave, if_neg hf]
      rw [ih dq hdq hml hsort]

/-- Claim C5: when iterating the top-level declarations of a
translation unit, every pending macro definition of the main source
file is yielded just before the first later declaration whose (extent
end) source line is greater than or equal to the macro's end line,
macros keep their relative order among themselves, and every pending
macro is eventually yielded.  Formally: the code's iteration equals the
spec-modelled re-interleaving, its output is a permutation of its
input, and the deferred-macro subsequence is preserved.  The
hypotheses record what holds of the AST provider's cursor stream: a
macro-definition cursor's recorded location line is its end line
(macros without line continuations), and the early macro batch arrives
in source order. -/
theorem C5_macro_reinterleaving (f : String) (cs : List TCursor)
    (hml : ∀ m ∈ cs.filter (isDeferred f), m.locLine = m.endLine)
    (hsort : (cs.filter (isDeferred f)).Pairwise
      (fun a b => a.locLine ≤ b.locLine)) :
    tuIter f cs = specReinterleave f cs [] ∧
    (tuIter f cs).Perm cs ∧
    (tuIter f cs).filter (isDeferred f) = cs.filter (isDeferred f) := by
  refine ⟨?_, ?_, ?_⟩
  · exact tuIterGo_eq_spec f cs [] (by simp) (by simpa using hml) (by simpa using hsort)
  · simpa using tuIterGo_perm f cs []
  · simpa using tuIterGo_filter f cs [] (by simp)

def macroCursorA : TCursor := ⟨.macroDefinition, "a.h", 1, 1, 100⟩

def macroCursorB : TCursor := ⟨.macroDefinition, "a.h", 4, 4, 101⟩

def structCursorA : TCursor := ⟨.structDecl, "a.h", 2, 2, 102⟩

def structCursorB : TCursor := ⟨.structDecl, "a.h", 5, 5, 103⟩

/-- Witness for C5 at a concrete stream: two early macros (lines 1 and
4) re-interleaved around declarations ending on lines 2 and 5. -/
theorem C5_macro_reinterleaving_witness :
    tuIter "a.h" [macroCursorA, macroCursorB, structCursorA, structCursorB] =
      specReinterleave "a.h"
        [macroCursorA, macroCursorB, structCursorA, structCursorB] [] ∧
    (tuIter "a.h" [macroCursorA, macroCursorB, structCursorA, structCursorB]).Perm
      [macroCursorA, macroCursorB, structCursorA, structCursorB] ∧
    (tuIter "a.h" [macroCursorA, macroCursorB, structCursorA, structCursorB]).filter
        (isDeferred "a.h") =
      ([macroCursorA, macroCursorB, structCursorA, structCursorB] : List TCursor).filter
        (isDeferred "a.h") :=
  C5_macro_reinterleaving "a.h"
    [macroCursorA, macroCursorB, structCursorA, structCursorB]
    (by decide) (by decide)

end Wrapid
